import Mathlib

/-!
Shallow embedding of the marketpsych sftp module (src/marketpsych/sftp.py):
period algebra, directory resolver, fetch planner, output sinks and the
caching transport, together with theorems settling the specification claims.
Strings stand for Python str, Except String models raised exceptions, and
lists of lines or bytes model streams.
-/

namespace MarketPsych

/-- Python datetime at second resolution.  The program never sets seconds or
microseconds except through datetime.min and datetime.max; microseconds are
omitted since no code path observes them. -/
structure Datetime where
  year : Nat
  month : Nat
  day : Nat
  hour : Nat
  minute : Nat
  second : Nat
deriving Repr, DecidableEq

/-- Key realizing Python datetime comparison, which is lexicographic on the
components; the radices bound each in-range component (month less than 13,
day less than 32, hour less than 24, minute and second less than 60), so the
key order agrees with the lexicographic order on every value the datetime
constructor admits. -/
def Datetime.key (d : Datetime) : Nat :=
  ((((d.year * 13 + d.month) * 32 + d.day) * 24 + d.hour) * 60 + d.minute) * 60 + d.second

/-- Python min(a, b): returns b only when b is strictly smaller. -/
def pymin (a b : Datetime) : Datetime := if b.key < a.key then b else a

/-- Python max(a, b): returns b only when b is strictly greater. -/
def pymax (a b : Datetime) : Datetime := if a.key < b.key then b else a

/-- Period = T.Tuple[datetime, datetime]. -/
abbrev Period := Datetime × Datetime

/-- datetime.min = 0001-01-01 00:00:00. -/
def datetime_min : Datetime := ⟨1, 1, 1, 0, 0, 0⟩

/-- datetime.max = 9999-12-31 23:59:59 (microseconds dropped). -/
def datetime_max : Datetime := ⟨9999, 12, 31, 23, 59, 59⟩

/-- calendar.isleap. -/
def isleap (y : Nat) : Bool := y % 4 == 0 && (y % 100 != 0 || y % 400 == 0)

/-- calendar.mdays (index 0 unused). -/
def mdays : List Nat := [0, 31, 28, 31, 30, 31, 30, 31, 31, 30, 31, 30, 31]

/-- Days of a month with 1 and 12 inclusive, as calendar.monthrange computes
its second component. -/
def daysIn (year month : Nat) : Nat :=
  mdays.getD month 0 + (if month == 2 && isleap year then 1 else 0)

/-- calendar.monthrange, restricted to the day count the program uses; it
raises IllegalMonthError for a month outside 1..12, for any year. -/
def monthrange (year month : Nat) : Except String Nat :=
  if 1 ≤ month ∧ month ≤ 12 then .ok (daysIn year month)
  else .error ("bad month number " ++ toString month ++ "; must be 1-12")

/-- datetime.datetime constructor validation (MINYEAR = 1, MAXYEAR = 9999);
the program always constructs with second = 0. -/
def mkDatetime (year month day hour minute : Nat) : Except String Datetime :=
  if year < 1 ∨ 9999 < year then .error ("year " ++ toString year ++ " is out of range")
  else if month < 1 ∨ 12 < month then .error "month must be in 1..12"
  else if day < 1 ∨ daysIn year month < day then .error "day is out of range for month"
  else if 23 < hour then .error "hour must be in 0..23"
  else if 59 < minute then .error "minute must be in 0..59"
  else .ok ⟨year, month, day, hour, minute, 0⟩

/-- Groups of DATE_PAT: (yyyy)(mm)?(dd)?(HH)?(MM)?.  The year group is not
optional; absent groups are none. -/
structure DateGroups where
  year : Nat
  month : Option Nat
  day : Option Nat
  hour : Option Nat
  minute : Option Nat
deriving Repr, DecidableEq

/-- Python regex word character (ASCII fragment of the re module class). -/
def isWordChar (c : Char) : Bool := c.isAlphanum || c == '_'

/-- Two ASCII digits, their value, and the rest of the input. -/
def digitPair : List Char → Option (Nat × List Char)
  | c1 :: c2 :: rest =>
    if c1.isDigit && c2.isDigit then
      some ((c1.toNat - 48) * 10 + (c2.toNat - 48), rest)
    else none
  | _ => none

/-- One optional non-word character, as the greedy group consumes it.  The
choice is forced: a digit can never be a non-word character, so no
backtracking into this group can succeed. -/
def optW : List Char → List Char
  | [] => []
  | c :: rest => if isWordChar c then c :: rest else rest

/-- Position where the anchor at the end of DATE_PAT matches: end of input,
or just before a newline that ends the input. -/
def atEnd : List Char → Bool
  | [] => true
  | ['\n'] => true
  | _ => false

/-- No newline except possibly as the final character (what a greedy dot-star
followed by the end anchor accepts). -/
def noLFexceptTrailing : List Char → Bool
  | [] => true
  | ['\n'] => true
  | c :: rest => decide (c ≠ '\n') && noLFexceptTrailing rest

/-- The optional leftovers group of DATE_PAT followed by the end anchor: one
non-word character then any non-newline characters, or nothing at all. -/
def leftoverOk : List Char → Bool
  | [] => true
  | ['\n'] => true
  | c :: rest => !isWordChar c && noLFexceptTrailing rest

/-- Anchored match of DATE_PAT.  Each optional group begins with an optional
non-word separator followed by two digits; since separators and digits are
disjoint character classes the greedy regex is deterministic, and a group
whose digits are present but whose continuation fails cannot be rescued by
skipping the group (the end anchor would then face the digits), so the match
fails there, exactly as below. -/
def matchDatePat (s : List Char) : Option DateGroups :=
  match digitPair s with
  | none => none
  | some (y1, s1) =>
    match digitPair s1 with
    | none => none
    | some (y2, s2) =>
      let year := y1 * 100 + y2
      if atEnd s2 then some ⟨year, none, none, none, none⟩ else
      match digitPair (optW s2) with
      | none => none
      | some (mo, s4) =>
        if atEnd s4 then some ⟨year, some mo, none, none, none⟩ else
        match digitPair (optW s4) with
        | none => none
        | some (dy, s6) =>
          if atEnd s6 then some ⟨year, some mo, some dy, none, none⟩ else
          match digitPair (optW s6) with
          | none => none
          | some (hh, s8) =>
            match digitPair (optW s8) with
            | none => none
            | some (mi, s10) =>
              if leftoverOk s10 then some ⟨year, some mo, some dy, some hh, some mi⟩
              else none

/-- DATETIME_FMT. -/
def DATETIME_FMT : String := "yyyy(-?mm(-?dd(-?HHMM)?)?)?"

/-- parse_date.  The defaults tuple is (0, 12, 31, 23, 59) for a range end and
(0, 1, 1, 0, 0) for a range start; the year default 0 is dead since the year
group always participates in a match.  The day is clamped with min against
monthrange, which is evaluated before the datetime constructor validates. -/
def parse_date (s : String) (isEnd : Bool) : Except String Datetime :=
  match matchDatePat s.data with
  | none =>
    .error ("Can\x27t parse timestamp: \x27" ++ s ++ "\x27. Expecting format: " ++ DATETIME_FMT)
  | some g =>
    let month := g.month.getD (if isEnd then 12 else 1)
    let day := g.day.getD (if isEnd then 31 else 1)
    let hour := g.hour.getD (if isEnd then 23 else 0)
    let minute := g.minute.getD (if isEnd then 59 else 0)
    match monthrange g.year month with
    | .error e => .error e
    | .ok ndays => mkDatetime g.year month (min day ndays) hour minute

/-- parse_period: parse_date(start), parse_date(end or start, end=True); the
Python expression end or start also replaces an empty end string. -/
def parse_period (start : String) (end_ : Option String) : Except String Period :=
  match parse_date start false with
  | .error e => .error e
  | .ok a =>
    match parse_date (match end_ with | none => start | some s => if s = "" then start else s) true with
    | .error e => .error e
    | .ok b => .ok (a, b)

/-- overlaps: max(starts) less or equal min(ends). -/
def overlaps (period1 period2 : Period) : Bool :=
  decide ((pymax period1.1 period2.1).key ≤ (pymin period1.2 period2.2).key)

/-- periods_union: bounding envelope (min start, max end) over the non-null
entries, or None when there are none (the ValueError branch). -/
def periods_union (periods : List (Option Period)) : Option Period :=
  match periods.filterMap id with
  | [] => none
  | p :: rest =>
    some ((rest.map Prod.fst).foldl pymin p.1, (rest.map Prod.snd).foldl pymax p.2)

/-- is_subperiod: the Python body returns period2 itself (falsy) when period2
is None, so the containment test can only succeed against a real envelope. -/
def is_subperiod (period1 : Period) (period2 : Option Period) : Bool :=
  match period2 with
  | none => false
  | some q => decide (q.1.key ≤ period1.1.key) && decide (period1.2.key ≤ q.2.key)

/-- str.split with a single-character separator, the only separator shape the
program uses; structurally recursive so that it evaluates inside proofs. -/
def splitChar (sep : Char) : List Char → List (List Char)
  | [] => [[]]
  | c :: rest =>
    if c = sep then [] :: splitChar sep rest
    else
      match splitChar sep rest with
      | [] => [[c]]
      | g :: gs => (c :: g) :: gs

/-- str.split on a String. -/
def pysplit (s : String) (sep : Char) : List String :=
  (splitChar sep s.data).map String.mk

/-- parse_file_period: period of the dot-separated field at index 4 of the
filename; a missing field is Python IndexError. -/
def parse_file_period (filename : String) : Except String Period :=
  match (pysplit filename (Char.ofNat 46)).get? 4 with
  | none => .error "list index out of range"
  | some tok => parse_period tok none

/-- AssetClass enumeration, in definition order. -/
inductive AssetClass
  | CMPNY | CMPNY_AMER | CMPNY_APAC | CMPNY_EMEA | CMPNY_ESG | CMPNY_GRP
  | COM_AGR | COM_ENM | COU | COU_ESG | COU_MKT | CRYPTO | CUR
deriving Repr, DecidableEq

/-- Name of an asset class, as the enum member name. -/
def AssetClass.name : AssetClass → String
  | .CMPNY => "CMPNY" | .CMPNY_AMER => "CMPNY_AMER" | .CMPNY_APAC => "CMPNY_APAC"
  | .CMPNY_EMEA => "CMPNY_EMEA" | .CMPNY_ESG => "CMPNY_ESG" | .CMPNY_GRP => "CMPNY_GRP"
  | .COM_AGR => "COM_AGR" | .COM_ENM => "COM_ENM" | .COU => "COU"
  | .COU_ESG => "COU_ESG" | .COU_MKT => "COU_MKT" | .CRYPTO => "CRYPTO" | .CUR => "CUR"

/-- Frequency enumeration, in definition order. -/
inductive Frequency
  | W365_UDAI | WDAI_UDAI | WDAI_UHOU | W01M_U01M
deriving Repr, DecidableEq

/-- Name of a frequency, as the enum member name. -/
def Frequency.name : Frequency → String
  | .W365_UDAI => "W365_UDAI" | .WDAI_UDAI => "WDAI_UDAI"
  | .WDAI_UHOU => "WDAI_UHOU" | .W01M_U01M => "W01M_U01M"

/-- Bucket enumeration, in definition order (coarse to fine). -/
inductive Bucket
  | monthly | daily | hourly | minutely
deriving Repr, DecidableEq

/-- Name of a bucket, as the enum member name. -/
def Bucket.name : Bucket → String
  | .monthly => "monthly" | .daily => "daily" | .hourly => "hourly" | .minutely => "minutely"

/-- Iteration order of the Bucket enum, used when no buckets are requested. -/
def Bucket.all : List Bucket := [.monthly, .daily, .hourly, .minutely]

/-- DEFAULT_TEMPLATE. -/
def DEFAULT_TEMPLATE : String := "\x7bprefix\x7d/\x7basset_class\x7d/\x7bfrequency\x7d/\x7bbucket\x7d"

/-- DEFAULT_PREFIX. -/
def DEFAULT_PREFIX_DIR : String := "/mrn-mi-w/PRO/MI4"

/-- sftp_dir: template.format substitution of the four placeholders; the
asset-class token takes the suffix _COR exactly when the frequency is
W365_UDAI.  Sequential replacement models str.format for templates whose
substituted values contain no placeholder text. -/
def sftp_dir (asset_class : AssetClass) (frequency : Frequency) (bucket : Bucket)
    (prefixDir : String) (template : String) : String :=
  (((template.replace "\x7bprefix\x7d" prefixDir).replace
      "\x7basset_class\x7d" (asset_class.name ++ (if frequency = .W365_UDAI then "_COR" else ""))).replace
    "\x7bbucket\x7d" bucket.name).replace "\x7bfrequency\x7d" frequency.name

/-- iter_dirs for a nonempty template (an empty template would fall back to
detect_template, a remote probe outside these claims): one directory per
requested bucket, all buckets in enum order when none are requested. -/
def iter_dirs (asset_class : AssetClass) (frequency : Frequency) (buckets : List Bucket)
    (template : String) (prefixDir : String) : List String :=
  (if buckets.isEmpty then Bucket.all else buckets).map
    (fun b => sftp_dir asset_class frequency b prefixDir template)

/-- Matching loop of SFTPClient.matching over a directory listing of
filenames: parse each entry period (a malformed name raises out of the
generator), keep an entry iff it overlaps the requested period and is not a
sub-period of the coverage envelope. -/
def matchingFiles (period : Period) (copied_period : Option Period) :
    List String → Except String (List (String × Period))
  | [] => .ok []
  | name :: rest =>
    match parse_file_period name with
    | .error e => .error e
    | .ok file_period =>
      match matchingFiles period copied_period rest with
      | .error e => .error e
      | .ok tail =>
        if overlaps period file_period && !is_subperiod file_period copied_period then
          .ok ((name, file_period) :: tail)
        else .ok tail

/-- SFTPClient.matching: a missing directory (FileNotFoundError, modeled as a
none listing) is logged and yields no matches. -/
def matching (listing : Option (List String)) (period : Period)
    (copied_period : Option Period) : Except String (List (String × Period)) :=
  match listing with
  | none => .ok []
  | some l => matchingFiles period copied_period l

/-- State of a FileOutput sink: the bytes written to the output stream so far
and the recorded header. -/
structure FileOutput where
  out : String
  header : Option String
deriving Repr, DecidableEq

/-- Positional parameters of SFTPClient.decompress after self, from its
signature (fp, attr, func). -/
def decompress_params : List String := ["fp", "attr", "func"]

/-- Positional arguments the RawConcat sink supplies at its call site, which
reads sftp.decompress(fp, self.copy): fp and self.copy only, binding attr to
the copy method and leaving the required func parameter unsupplied. -/
def fileOutput_decompress_args : Nat := 2

/-- FileOutput.copy_file: the call supplies fewer arguments than decompress
requires, so Python raises TypeError before any byte is read or written and
the copy method (header recording, stripping, mismatch check) is never
entered.  Were the arity right, the guarded branch would decompress and
stream the content through FileOutput.copy, whose first statement
read(32768).split of a str stream by the bytes newline is itself a
TypeError. -/
def FileOutput.copy_file (st : FileOutput) (_fp : String) : Except String FileOutput :=
  if fileOutput_decompress_args = decompress_params.length then
    .ok st
  else
    .error "TypeError: decompress() missing 1 required positional argument: \x27func\x27"

/-- FileOutput.copy_file over the matched file paths in processing order, as
the download loop would invoke the RawConcat sink. -/
def FileOutput.copy_files (st : FileOutput) : List String → Except String FileOutput
  | [] => .ok st
  | fp :: rest =>
    match FileOutput.copy_file st fp with
    | .error e => .error e
    | .ok st2 => FileOutput.copy_files st2 rest

/-- Attribute names resolvable on the SFTPClient object: the methods the
source defines on SFTPClient and CachingSFTPClient plus the public methods
paramiko.SFTPClient provides. -/
def sftpClientAttrs : List String :=
  ["copy_to_dir", "decompress", "iter_dirs", "ls", "matching", "download", "detect_template",
   "cached_path", "ensure_cache", "open", "cache",
   "chdir", "chmod", "chown", "close", "file", "get", "getcwd", "getfo", "listdir",
   "listdir_attr", "listdir_iter", "lstat", "mkdir", "normalize", "posix_rename", "put",
   "putfo", "readlink", "remove", "rename", "rmdir", "stat", "symlink", "truncate",
   "unlink", "utime", "from_transport"]

/-- Last path component, Path.name. -/
def baseName (s : String) : String := (pysplit s (Char.ofNat 47)).getLastD s

/-- SFTPClient.copy_to_dir: the transfer the client offers for directory
output, fetching the raw remote file to dst joined with the source base
name. -/
def copy_to_dir (src : String) (dst : String) : String × String :=
  (src, dst ++ "/" ++ baseName src)

/-- DirOutput.copy_file: the source line is sftp.get_file(fp, self.out), an
attribute lookup on the client object, which defines no get_file, so the call
raises AttributeError before any transfer. -/
def DirOutput.copy_file (out : String) (fp : String) : Except String (String × String) :=
  if sftpClientAttrs.contains "get_file" then .ok (copy_to_dir fp out)
  else .error "AttributeError: \x27SFTPClient\x27 object has no attribute \x27get_file\x27"

/-- Constraint a column of the TSV line pattern imposes: the unconstrained
field [^TAB]*, an escaped alternation of literal values, or the capturing
timestamp field. -/
inductive FieldPat
  | any
  | oneOf (vals : List String)
  | capture
deriving Repr, DecidableEq

/-- choice_re: None for an empty value list, otherwise the alternation of the
escaped literals, which a tab-delimited field satisfies exactly by equality
with one of them. -/
def choice_re (vals : List String) : Option FieldPat :=
  if vals.isEmpty then none else some (.oneOf vals)

/-- list.index, raising ValueError when the name is absent from the header. -/
def indexOfHeader (header : List String) (name : String) : Except String Nat :=
  match header.indexOf? name with
  | none => .error (name ++ " is not in list")
  | some ix => .ok ix

/-- Extension step of line_re: pad the field list with unconstrained fields
up to the column index, then set that column to the constraint. -/
def placeField (fields : List FieldPat) (ix : Nat) (fp : FieldPat) : List FieldPat :=
  (fields ++ List.replicate (ix + 1 - fields.length) FieldPat.any).set ix fp

/-- line_re over the keyword constraints in their source order, skipping None
values; the compiled pattern is the field constraints joined with tabs plus a
trailing tab. -/
def line_re (header : List String) :
    List (String × Option FieldPat) → List FieldPat → Except String (List FieldPat)
  | [], fields => .ok fields
  | (_, none) :: rest, fields => line_re header rest fields
  | (name, some fp) :: rest, fields =>
    match indexOfHeader header name with
    | .error e => .error e
    | .ok ix => line_re header rest (placeField fields ix fp)

/-- Does a tab-delimited field satisfy one column constraint. -/
def fieldMatchB : FieldPat → String → Bool
  | .any, _ => true
  | .oneOf vs, s => vs.contains s
  | .capture, _ => true

/-- Prefix match of the compiled pattern against the tab-split parts of a
line: every constrained column must match and a further tab must follow the
last constrained column; returns the captured timestamp field when the
pattern captures one. -/
def fieldsMatch : List FieldPat → List String → Option (Option String)
  | [], [] => none
  | [], _ :: _ => some none
  | _ :: _, [] => none
  | f :: fs, p :: ps =>
    if fieldMatchB f p then
      match fieldsMatch fs ps with
      | none => none
      | some cap => some (match f with | .capture => some p | _ => cap)
    else none

/-- Parameters of a DataFrameOutput sink (read_csv_opts only feeds the
tabular parse downstream of filter_rows and is omitted). -/
structure DataFrameOutput where
  assets : List String
  sources : List String
  start : Datetime
  end_ : Datetime
deriving Repr

/-- DataFrameOutput.pattern: constraints for assetCode, dataType and, when
dates are filtered, the captured windowTimestamp column. -/
def DataFrameOutput.pattern (o : DataFrameOutput) (header : List String)
    (capture_date : Bool) : Except String (List FieldPat) :=
  line_re header
    [("assetCode", choice_re o.assets), ("dataType", choice_re o.sources),
     ("windowTimestamp", if capture_date then some .capture else none)] []

/-- Zero-padded decimal of width 2. -/
def pad2 (n : Nat) : String := if n < 10 then "0" ++ toString n else toString n

/-- Zero-padded decimal of width 4. -/
def pad4 (n : Nat) : String :=
  if n < 10 then "000" ++ toString n
  else if n < 100 then "00" ++ toString n
  else if n < 1000 then "0" ++ toString n
  else toString n

/-- strftime of the bound format: %FT%T.000Z extended ISO-8601 UTC. -/
def strftimeFTZ (d : Datetime) : String :=
  pad4 d.year ++ "-" ++ pad2 d.month ++ "-" ++ pad2 d.day ++ "T" ++
    pad2 d.hour ++ ":" ++ pad2 d.minute ++ ":" ++ pad2 d.second ++ ".000Z"

/-- Python string comparison, lexicographic on code points. -/
def strLe (a b : String) : Bool := a == b || decide (a < b)

/-- DataFrameOutput.filter_rows over the lines of one decompressed file: the
fast path returns the stream unchanged when no asset or source filter is set
and the file period lies inside the window; otherwise the header is written
to the buffer and the remaining lines are kept by the compiled pattern, with
timestamp bounds applied when the file period is not fully covered. -/
def filter_rows (o : DataFrameOutput) (fr : List String) (path : String) :
    Except String (List String) :=
  match parse_file_period path with
  | .error e => .error e
  | .ok pe =>
    let keep_all_dates := decide (o.start.key ≤ pe.1.key) && decide (pe.2.key ≤ o.end_.key)
    if o.assets.isEmpty && o.sources.isEmpty && keep_all_dates then .ok fr
    else
      match fr with
      | [] => .error "StopIteration"
      | header :: rest =>
        match o.pattern (pysplit header (Char.ofNat 9)) (!keep_all_dates) with
        | .error e => .error e
        | .ok pat =>
          let lines :=
            if keep_all_dates then
              rest.filter (fun line => (fieldsMatch pat (pysplit line (Char.ofNat 9))).isSome)
            else
              let START := strftimeFTZ o.start
              let END := strftimeFTZ o.end_
              rest.filter (fun line =>
                match fieldsMatch pat (pysplit line (Char.ofNat 9)) with
                | some (some ts) => strLe START ts && strLe ts END
                | _ => false)
          .ok (header :: lines)

/-- Path.relative_to root for the cache key: an absolute remote path is taken
relative to the filesystem root (its single leading slash is removed). -/
def relative_to_root (path : String) : String :=
  match path.data with
  | c :: rest => if c = Char.ofNat 47 then String.mk rest else path
  | [] => path

/-- CachingSFTPClient.cached_path. -/
def cached_path (cache : String) (path : String) : String :=
  cache ++ "/" ++ relative_to_root path

/-- Local cache filesystem and a ghost transfer counter: files maps a local
path to its byte content (the association list front shadows older writes, so
a new get overwrites), transfers counts the remote get calls issued. -/
structure CacheState where
  files : List (String × String)
  transfers : Nat
deriving Repr, DecidableEq

/-- CachingSFTPClient.ensure_cache: serve an existing non-empty cache file,
otherwise create the parent directories (no observable effect in this file
model), fetch the remote bytes into the cache and return the cached path. -/
def ensure_cache (remote : String → String) (cache : String) (st : CacheState)
    (path : String) : CacheState × String :=
  let cp := cached_path cache path
  match st.files.lookup cp with
  | some content =>
    if content.length == 0 then (⟨(cp, remote path) :: st.files, st.transfers + 1⟩, cp)
    else (st, cp)
  | none => (⟨(cp, remote path) :: st.files, st.transfers + 1⟩, cp)

/-- Output sink as the download loop consumes it: copy_file receives the
running accumulator (initially None) and the remote file path and returns the
new accumulator. -/
structure Sink (σ : Type) where
  copy_file : Option σ → String → Except String (Option σ)

/-- Inner loop of download over the matched files of one directory. -/
def copyFiles (sink : Sink σ) (dir : String) :
    Option σ → List (String × Period) → Except String (Option σ)
  | acc, [] => .ok acc
  | acc, (name, _) :: rest =>
    match sink.copy_file acc (dir ++ "/" ++ name) with
    | .error e => .error e
    | .ok acc2 => copyFiles sink dir acc2 rest

/-- Loop state of download; envelopes is a ghost trace recording the coverage
envelope after each processed directory. -/
structure DLState (σ : Type) where
  result : Option σ
  copied_period : Option Period
  n_files : Nat
  envelopes : List (Option Period)
deriving Repr

/-- One directory of the download loop: list and match against the current
envelope, copy each kept file through the sink, then take the envelope to the
bounding union of itself and the matched periods. -/
def processDir (ls : String → Option (List String)) (sink : Sink σ) (period : Period)
    (st : DLState σ) (dir : String) : Except String (DLState σ) :=
  match matching (ls dir) period st.copied_period with
  | .error e => .error e
  | .ok ms =>
    match copyFiles sink dir st.result ms with
    | .error e => .error e
    | .ok res =>
      let cp := periods_union (st.copied_period :: ms.map (fun x => some x.2))
      .ok ⟨res, cp, st.n_files + ms.length, st.envelopes ++ [cp]⟩

/-- The download loop over the candidate directories in order. -/
def downloadDirs (ls : String → Option (List String)) (sink : Sink σ) (period : Period) :
    List String → DLState σ → Except String (DLState σ)
  | [], st => .ok st
  | dir :: rest, st =>
    match processDir ls sink period st dir with
    | .error e => .error e
    | .ok st2 => downloadDirs ls sink period rest st2

/-- Result of download, with warned recording the final no-files warning. -/
structure DL (σ : Type) where
  result : Option σ
  copied_period : Option Period
  n_files : Nat
  envelopes : List (Option Period)
  warned : Bool
deriving Repr

/-- SFTPClient.download: resolve the candidate directories (appending TRIAL
to the root on the trial flag), run the loop from a None result, a None
envelope and a zero file count, and warn iff no file was processed. -/
def download (ls : String → Option (List String)) (sink : Sink σ)
    (asset_class : AssetClass) (frequency : Frequency) (start end_ : Datetime)
    (buckets : List Bucket) (prefixDir : String) (trial : Bool) (template : String) :
    Except String (DL σ) :=
  let dirs := iter_dirs asset_class frequency buckets template
    (if trial then prefixDir ++ "/TRIAL" else prefixDir)
  match downloadDirs ls sink (start, end_) dirs ⟨none, none, 0, []⟩ with
  | .error e => .error e
  | .ok st => .ok ⟨st.result, st.copied_period, st.n_files, st.envelopes, st.n_files == 0⟩

/-- Containment between envelope values: whenever the earlier value is a real
period, the later value is a real period containing it. -/
def envLe (a b : Option Period) : Prop :=
  ∀ p, a = some p → ∃ q, b = some q ∧ is_subperiod p (some q) = true

/-- Monotone growth along a trace of envelope values. -/
def EnvMono (l : List (Option Period)) : Prop :=
  ∀ (i j : Nat) (ei ej : Option Period),
    i ≤ j → l[i]? = some ei → l[j]? = some ej → envLe ei ej

/-- Invariant of the download loop: the recorded envelope trace is monotone
and every recorded value is contained in the current envelope. -/
def DLInv (st : DLState σ) : Prop :=
  EnvMono st.envelopes ∧ ∀ e ∈ st.envelopes, envLe e st.copied_period

/-! Supporting lemmas. -/

theorem matchingFiles_mem (period : Period) (copied : Option Period) (listing : List String)
    (result : List (String × Period)) (h : matchingFiles period copied listing = .ok result)
    (name : String) (fp : Period) :
    (name, fp) ∈ result ↔
      (name ∈ listing ∧ parse_file_period name = .ok fp ∧ overlaps period fp = true ∧
        is_subperiod fp copied = false) := by
  induction listing generalizing result with
  | nil =>
    rw [matchingFiles] at h
    injection h with h
    subst h
    simp
  | cons nm rest ih =>
    rw [matchingFiles] at h
    cases hp : parse_file_period nm with
    | error e => simp only [hp] at h; exact Except.noConfusion h
    | ok fp0 =>
      simp only [hp] at h
      cases hr : matchingFiles period copied rest with
      | error e => simp only [hr] at h; exact Except.noConfusion h
      | ok tail =>
        simp only [hr] at h
        by_cases hcond : (overlaps period fp0 && !is_subperiod fp0 copied) = true
        · rw [if_pos hcond] at h
          injection h with h
          subst h
          rw [Bool.and_eq_true] at hcond
          obtain ⟨ho, hs⟩ := hcond
          have hs' : is_subperiod fp0 copied = false := by
            cases hh : is_subperiod fp0 copied
            · rfl
            · rw [hh] at hs; cases hs
          constructor
          · intro hmem
            rcases List.mem_cons.mp hmem with heq | htail
            · rw [Prod.mk.injEq] at heq
              obtain ⟨h1, h2⟩ := heq
              subst h1; subst h2
              exact ⟨List.mem_cons_self _ _, hp, ho, hs'⟩
            · obtain ⟨hm, hpar, hov, hsub⟩ := (ih tail hr).mp htail
              exact ⟨List.mem_cons_of_mem _ hm, hpar, hov, hsub⟩
          · rintro ⟨hmem, hpar, hov, hsub⟩
            rcases List.mem_cons.mp hmem with heq | htail
            · subst heq
              rw [hp] at hpar
              injection hpar with hpar
              subst hpar
              exact List.mem_cons_self _ _
            · exact List.mem_cons_of_mem _ ((ih tail hr).mpr ⟨htail, hpar, hov, hsub⟩)
        · rw [if_neg hcond] at h
          injection h with h
          subst h
          constructor
          · intro hmem
            obtain ⟨hm, hpar, hov, hsub⟩ := (ih _ hr).mp hmem
            exact ⟨List.mem_cons_of_mem _ hm, hpar, hov, hsub⟩
          · rintro ⟨hmem, hpar, hov, hsub⟩
            rcases List.mem_cons.mp hmem with heq | htail
            · subst heq
              rw [hp] at hpar
              injection hpar with hpar
              subst hpar
              exact absurd (by rw [hov, hsub]; rfl) hcond
            · exact (ih _ hr).mpr ⟨htail, hpar, hov, hsub⟩

theorem pymin_key_le_left (a b : Datetime) : (pymin a b).key ≤ a.key := by
  unfold pymin; split <;> omega

theorem pymin_key_le_right (a b : Datetime) : (pymin a b).key ≤ b.key := by
  unfold pymin; split <;> omega

theorem pymax_key_ge_left (a b : Datetime) : a.key ≤ (pymax a b).key := by
  unfold pymax; split <;> omega

theorem pymax_key_ge_right (a b : Datetime) : b.key ≤ (pymax a b).key := by
  unfold pymax; split <;> omega

theorem foldl_pymin_le_init (l : List Datetime) (a : Datetime) :
    (l.foldl pymin a).key ≤ a.key := by
  induction l generalizing a with
  | nil => simp
  | cons x xs ih =>
    calc ((x :: xs).foldl pymin a).key = (xs.foldl pymin (pymin a x)).key := rfl
      _ ≤ (pymin a x).key := ih _
      _ ≤ a.key := pymin_key_le_left a x

theorem foldl_pymin_le_mem (l : List Datetime) (x : Datetime) (hx : x ∈ l) :
    ∀ a, (l.foldl pymin a).key ≤ x.key := by
  induction l with
  | nil => cases hx
  | cons y ys ih =>
    intro a
    rcases List.mem_cons.mp hx with heq | htail
    · subst heq
      calc ((x :: ys).foldl pymin a).key = (ys.foldl pymin (pymin a x)).key := rfl
        _ ≤ (pymin a x).key := foldl_pymin_le_init ys _
        _ ≤ x.key := pymin_key_le_right a x
    · exact ih htail (pymin a y)

theorem foldl_pymax_ge_init (l : List Datetime) (a : Datetime) :
    a.key ≤ (l.foldl pymax a).key := by
  induction l generalizing a with
  | nil => simp
  | cons x xs ih =>
    calc a.key ≤ (pymax a x).key := pymax_key_ge_left a x
      _ ≤ (xs.foldl pymax (pymax a x)).key := ih _
      _ = ((x :: xs).foldl pymax a).key := rfl

theorem foldl_pymax_ge_mem (l : List Datetime) (x : Datetime) (hx : x ∈ l) :
    ∀ a, x.key ≤ (l.foldl pymax a).key := by
  induction l with
  | nil => cases hx
  | cons y ys ih =>
    intro a
    rcases List.mem_cons.mp hx with heq | htail
    · subst heq
      calc x.key ≤ (pymax a x).key := pymax_key_ge_right a x
        _ ≤ (ys.foldl pymax (pymax a x)).key := foldl_pymax_ge_init ys _
        _ = ((x :: ys).foldl pymax a).key := rfl
    · exact ih htail (pymax a y)

theorem periods_union_contains (ps : List (Option Period)) (p : Period)
    (hm : some p ∈ ps) :
    ∃ q, periods_union ps = some q ∧ is_subperiod p (some q) = true := by
  have hp : p ∈ ps.filterMap id := List.mem_filterMap.mpr ⟨some p, hm, rfl⟩
  cases hfm : ps.filterMap id with
  | nil => rw [hfm] at hp; cases hp
  | cons q rest =>
    rw [hfm] at hp
    refine ⟨_, by rw [periods_union, hfm], ?_⟩
    have h1 : ((rest.map Prod.fst).foldl pymin q.1).key ≤ p.1.key := by
      rcases List.mem_cons.mp hp with heq | htail
      · subst heq; exact foldl_pymin_le_init _ _
      · exact foldl_pymin_le_mem _ _ (List.mem_map_of_mem Prod.fst htail) _
    have h2 : p.2.key ≤ ((rest.map Prod.snd).foldl pymax q.2).key := by
      rcases List.mem_cons.mp hp with heq | htail
      · subst heq; exact foldl_pymax_ge_init _ _
      · exact foldl_pymax_ge_mem _ _ (List.mem_map_of_mem Prod.snd htail) _
    simp [is_subperiod, h1, h2]

theorem is_subperiod_refl (p : Period) : is_subperiod p (some p) = true := by
  simp [is_subperiod]

theorem is_subperiod_trans (p q r : Period) (h1 : is_subperiod p (some q) = true)
    (h2 : is_subperiod q (some r) = true) : is_subperiod p (some r) = true := by
  simp only [is_subperiod, Bool.and_eq_true, decide_eq_true_eq] at h1 h2 ⊢
  omega

theorem envLe_refl (a : Option Period) : envLe a a :=
  fun p hp => ⟨p, hp, is_subperiod_refl p⟩

theorem envLe_trans (a b c : Option Period) (h1 : envLe a b) (h2 : envLe b c) : envLe a c := by
  intro p hp
  obtain ⟨q, hq, hpq⟩ := h1 p hp
  obtain ⟨r, hr, hqr⟩ := h2 q hq
  exact ⟨r, hr, is_subperiod_trans p q r hpq hqr⟩

theorem envLe_union (a : Option Period) (rest : List (Option Period)) :
    envLe a (periods_union (a :: rest)) := by
  intro p hp
  exact periods_union_contains (a :: rest) p (by rw [← hp]; exact List.mem_cons_self _ _)

theorem envMono_append (l : List (Option Period)) (c : Option Period)
    (hl : EnvMono l) (hc : ∀ e ∈ l, envLe e c) : EnvMono (l ++ [c]) := by
  intro i j ei ej hij hi hj
  by_cases hjl : j < l.length
  · have hil : i < l.length := lt_of_le_of_lt hij hjl
    rw [List.getElem?_append_left hil] at hi
    rw [List.getElem?_append_left hjl] at hj
    exact hl i j ei ej hij hi hj
  · have hjlen : j < l.length + 1 := by
      by_contra hh
      have : (l ++ [c])[j]? = none := List.getElem?_eq_none (by simp; omega)
      rw [this] at hj; cases hj
    have hj' : j = l.length := by omega
    subst hj'
    rw [List.getElem?_concat_length] at hj
    injection hj with hj
    subst hj
    by_cases hil : i < l.length
    · rw [List.getElem?_append_left hil] at hi
      exact hc ei (List.getElem?_mem hi)
    · have hi' : i = l.length := by omega
      subst hi'
      rw [List.getElem?_concat_length] at hi
      injection hi with hi
      subst hi
      exact envLe_refl _

theorem processDir_ok {σ : Type} (ls : String → Option (List String)) (sink : Sink σ)
    (period : Period) (st : DLState σ) (dir : String) (st2 : DLState σ)
    (h : processDir ls sink period st dir = .ok st2) :
    ∃ ms res, matching (ls dir) period st.copied_period = .ok ms ∧
      copyFiles sink dir st.result ms = .ok res ∧
      st2 = ⟨res, periods_union (st.copied_period :: ms.map (fun x => some x.2)),
             st.n_files + ms.length,
             st.envelopes ++ [periods_union (st.copied_period :: ms.map (fun x => some x.2))]⟩ := by
  rw [processDir] at h
  cases hm : matching (ls dir) period st.copied_period with
  | error e => simp only [hm] at h; exact Except.noConfusion h
  | ok ms =>
    simp only [hm] at h
    cases hc : copyFiles sink dir st.result ms with
    | error e => simp only [hc] at h; exact Except.noConfusion h
    | ok res =>
      simp only [hc] at h
      injection h with h
      exact ⟨ms, res, rfl, hc, h.symm⟩

theorem processDir_inv {σ : Type} (ls : String → Option (List String)) (sink : Sink σ)
    (period : Period) (st : DLState σ) (dir : String) (st2 : DLState σ)
    (h : processDir ls sink period st dir = .ok st2) (hinv : DLInv st) : DLInv st2 := by
  obtain ⟨ms, res, hm, hc, hst⟩ := processDir_ok ls sink period st dir st2 h
  subst hst
  have hgrow : envLe st.copied_period
      (periods_union (st.copied_period :: ms.map (fun x => some x.2))) :=
    envLe_union st.copied_period _
  constructor
  · exact envMono_append _ _ hinv.1 (fun e he => envLe_trans _ _ _ (hinv.2 e he) hgrow)
  · intro e he
    rcases List.mem_append.mp he with hin | hlast
    · exact envLe_trans _ _ _ (hinv.2 e hin) hgrow
    · rw [List.mem_singleton.mp hlast]
      exact envLe_refl _

theorem downloadDirs_inv {σ : Type} (ls : String → Option (List String)) (sink : Sink σ)
    (period : Period) (dirs : List String) (st st2 : DLState σ)
    (h : downloadDirs ls sink period dirs st = .ok st2) (hinv : DLInv st) : DLInv st2 := by
  induction dirs generalizing st with
  | nil =>
    rw [downloadDirs] at h
    injection h with h
    subst h
    exact hinv
  | cons d rest ih =>
    rw [downloadDirs] at h
    cases hp : processDir ls sink period st d with
    | error e => simp only [hp] at h; exact Except.noConfusion h
    | ok stm =>
      simp only [hp] at h
      exact ih stm h (processDir_inv ls sink period st d stm hp hinv)

theorem downloadDirs_empty {σ : Type} (ls : String → Option (List String)) (sink : Sink σ)
    (period : Period) (dirs : List String)
    (h : ∀ dir ∈ dirs, matching (ls dir) period none = .ok [])
    (res0 : Option σ) (n0 : Nat) (envs : List (Option Period)) :
    downloadDirs ls sink period dirs ⟨res0, none, n0, envs⟩ =
      .ok ⟨res0, none, n0, envs ++ List.replicate dirs.length none⟩ := by
  induction dirs generalizing envs with
  | nil => simp [downloadDirs]
  | cons d rest ih =>
    have step : processDir ls sink period ⟨res0, none, n0, envs⟩ d =
        .ok ⟨res0, none, n0, envs ++ [none]⟩ := by
      rw [processDir, h d (List.mem_cons_self _ _)]
      rfl
    rw [downloadDirs, step]
    show downloadDirs ls sink period rest ⟨res0, none, n0, envs ++ [none]⟩ = _
    rw [ih (fun dir hd => h dir (List.mem_cons_of_mem _ hd))]
    simp [List.replicate_succ, List.append_assoc]

/-! Claim theorems. -/

/-- C1: for every request period and accumulated coverage envelope, the
matching step yields a listed file iff the file period parsed from its name
overlaps the requested period and is not a sub-period of the envelope; in
particular a fine-bucket file whose period lies inside the envelope
accumulated from a coarser directory is skipped. -/
theorem c1_matching_keeps_iff (listing : List String) (period : Period)
    (copied_period : Option Period) (result : List (String × Period))
    (h : matchingFiles period copied_period listing = .ok result)
    (name : String) (fp : Period) :
    (name, fp) ∈ result ↔
      (name ∈ listing ∧ parse_file_period name = .ok fp ∧ overlaps period fp = true ∧
        is_subperiod fp copied_period = false) :=
  matchingFiles_mem period copied_period listing result h name fp

/-- Witness for C1: with the envelope 2021-01-01T00:00 to 2021-01-31T23:59
accumulated from a coarse monthly file, the daily file for 2021-01-10
overlaps the January request yet is a sub-period of the envelope, so the
matching step skips it. -/
theorem c1_matching_keeps_iff_witness :
    matchingFiles ((⟨2021, 1, 1, 0, 0, 0⟩, ⟨2021, 1, 31, 23, 59, 0⟩) : Period)
        (some (⟨2021, 1, 1, 0, 0, 0⟩, ⟨2021, 1, 31, 23, 59, 0⟩))
        ["MI4.CMPNY.WDAI_UDAI.daily.20210110.csv"] = .ok [] ∧
    (("MI4.CMPNY.WDAI_UDAI.daily.20210110.csv",
        ((⟨2021, 1, 10, 0, 0, 0⟩, ⟨2021, 1, 10, 23, 59, 0⟩) : Period)) ∈
        ([] : List (String × Period)) ↔
      ("MI4.CMPNY.WDAI_UDAI.daily.20210110.csv" ∈ ["MI4.CMPNY.WDAI_UDAI.daily.20210110.csv"] ∧
        parse_file_period "MI4.CMPNY.WDAI_UDAI.daily.20210110.csv" =
          .ok (⟨2021, 1, 10, 0, 0, 0⟩, ⟨2021, 1, 10, 23, 59, 0⟩) ∧
        overlaps (⟨2021, 1, 1, 0, 0, 0⟩, ⟨2021, 1, 31, 23, 59, 0⟩)
          (⟨2021, 1, 10, 0, 0, 0⟩, ⟨2021, 1, 10, 23, 59, 0⟩) = true ∧
        is_subperiod (⟨2021, 1, 10, 0, 0, 0⟩, ⟨2021, 1, 10, 23, 59, 0⟩)
          (some (⟨2021, 1, 1, 0, 0, 0⟩, ⟨2021, 1, 31, 23, 59, 0⟩)) = false)) :=
  ⟨rfl, c1_matching_keeps_iff ["MI4.CMPNY.WDAI_UDAI.daily.20210110.csv"]
    (⟨2021, 1, 1, 0, 0, 0⟩, ⟨2021, 1, 31, 23, 59, 0⟩)
    (some (⟨2021, 1, 1, 0, 0, 0⟩, ⟨2021, 1, 31, 23, 59, 0⟩)) [] rfl
    "MI4.CMPNY.WDAI_UDAI.daily.20210110.csv" (⟨2021, 1, 10, 0, 0, 0⟩, ⟨2021, 1, 10, 23, 59, 0⟩)⟩

/-- C3: the DirectoryCopy sink cannot copy anything: its copy operation calls
the attribute get_file, which neither the source classes nor the underlying
transport define, so every invocation raises AttributeError instead of
copying the file under its base name. -/
theorem c3_diroutput_attribute_error (out fp : String) :
    DirOutput.copy_file out fp =
      .error "AttributeError: \x27SFTPClient\x27 object has no attribute \x27get_file\x27" := rfl

/-- C4 (amended): materialize returns an existing non-empty cache file with
no transfer; on a missing cache file it copies the remote content in and
returns the cached path; and repeated accesses perform no further transfer
provided the remote file is non-empty. -/
theorem c4_ensure_cache (remote : String → String) (cache : String) (st : CacheState)
    (path : String) :
    (∀ content, st.files.lookup (cached_path cache path) = some content →
      content.length ≠ 0 → ensure_cache remote cache st path = (st, cached_path cache path)) ∧
    (st.files.lookup (cached_path cache path) = none →
      ensure_cache remote cache st path =
        (⟨(cached_path cache path, remote path) :: st.files, st.transfers + 1⟩,
          cached_path cache path)) ∧
    ((remote path).length ≠ 0 →
      ensure_cache remote cache (ensure_cache remote cache st path).1 path =
        ((ensure_cache remote cache st path).1, cached_path cache path)) := by
  refine ⟨?_, ?_, ?_⟩
  · intro content hc hlen
    rw [ensure_cache]
    simp only [hc]
    rw [if_neg (by simp [hlen])]
  · intro hnone
    rw [ensure_cache]
    simp only [hnone]
  · intro hr
    have hself : ∀ st1 : CacheState,
        st1.files.lookup (cached_path cache path) = some (remote path) →
        ensure_cache remote cache st1 path = (st1, cached_path cache path) := by
      intro st1 hl
      rw [ensure_cache]
      simp only [hl]
      rw [if_neg (by simp [hr])]
    cases hl : st.files.lookup (cached_path cache path) with
    | none =>
      have h1 : ensure_cache remote cache st path =
          (⟨(cached_path cache path, remote path) :: st.files, st.transfers + 1⟩,
            cached_path cache path) := by
        rw [ensure_cache]; simp only [hl]
      rw [h1]
      exact hself _ (by simp [List.lookup])
    | some content =>
      by_cases hz : content.length = 0
      · have h1 : ensure_cache remote cache st path =
            (⟨(cached_path cache path, remote path) :: st.files, st.transfers + 1⟩,
              cached_path cache path) := by
          rw [ensure_cache]; simp only [hl]
          rw [if_pos (by simp [hz])]
        rw [h1]
        exact hself _ (by simp [List.lookup])
      · have h1 : ensure_cache remote cache st path = (st, cached_path cache path) := by
          rw [ensure_cache]; simp only [hl]
          rw [if_neg (by simp [hz])]
        rw [h1]
        exact h1

/-- Witness for C4: on an empty cache the first access transfers and caches
the remote content, and a second access performs no further transfer. -/
theorem c4_ensure_cache_witness :
    ensure_cache (fun _ => "data") "cache" ⟨[], 0⟩ "/f" =
      (⟨[("cache/f", "data")], 1⟩, "cache/f") ∧
    ensure_cache (fun _ => "data") "cache"
        (ensure_cache (fun _ => "data") "cache" ⟨[], 0⟩ "/f").1 "/f" =
      ((ensure_cache (fun _ => "data") "cache" ⟨[], 0⟩ "/f").1, cached_path "cache" "/f") :=
  ⟨(c4_ensure_cache (fun _ => "data") "cache" ⟨[], 0⟩ "/f").2.1 rfl,
   (c4_ensure_cache (fun _ => "data") "cache" ⟨[], 0⟩ "/f").2.2 (by decide)⟩

/-- Counterexample for C4 as stated: for an empty remote file the cached copy
has size zero, so every access re-transfers; two accesses perform two remote
transfers, not at most one. -/
theorem c4_counterexample :
    (ensure_cache (fun _ => "") "cache"
        ((ensure_cache (fun _ => "") "cache" ⟨[], 0⟩ "/f").1) "/f").1.transfers = 2 ∧
    ¬ (ensure_cache (fun _ => "") "cache"
        ((ensure_cache (fun _ => "") "cache" ⟨[], 0⟩ "/f").1) "/f").1.transfers ≤ 1 :=
  ⟨rfl, by decide⟩

/-- C10: is_subperiod of any period against the empty envelope is falsy, so
in the first candidate directory of a download, where the envelope is still
None, the deduplication check excludes nothing: a file is kept exactly when
its period overlaps the requested period. -/
theorem c10_subperiod_none :
    (∀ p : Period, is_subperiod p none = false) ∧
    (∀ (listing : List String) (period : Period) (result : List (String × Period)),
      matchingFiles period none listing = .ok result →
      ∀ name fp, (name, fp) ∈ result ↔
        (name ∈ listing ∧ parse_file_period name = .ok fp ∧ overlaps period fp = true)) := by
  constructor
  · intro p; rfl
  · intro listing period result h name fp
    rw [matchingFiles_mem period none listing result h name fp]
    simp [is_subperiod]

/-- Witness for C10: in the first directory the daily file for 2021-01-10 is
kept for the January request although it would be a sub-period of any later
envelope, because the empty envelope excludes nothing. -/
theorem c10_subperiod_none_witness :
    is_subperiod ((⟨2021, 1, 10, 0, 0, 0⟩, ⟨2021, 1, 10, 23, 59, 0⟩) : Period) none = false ∧
    (("A.B.C.D.20210110.csv", ((⟨2021, 1, 10, 0, 0, 0⟩, ⟨2021, 1, 10, 23, 59, 0⟩) : Period)) ∈
        [("A.B.C.D.20210110.csv", ((⟨2021, 1, 10, 0, 0, 0⟩, ⟨2021, 1, 10, 23, 59, 0⟩) : Period))] ↔
      ("A.B.C.D.20210110.csv" ∈ ["A.B.C.D.20210110.csv"] ∧
        parse_file_period "A.B.C.D.20210110.csv" =
          .ok (⟨2021, 1, 10, 0, 0, 0⟩, ⟨2021, 1, 10, 23, 59, 0⟩) ∧
        overlaps (⟨2021, 1, 1, 0, 0, 0⟩, ⟨2021, 1, 31, 23, 59, 0⟩)
          (⟨2021, 1, 10, 0, 0, 0⟩, ⟨2021, 1, 10, 23, 59, 0⟩) = true)) :=
  ⟨c10_subperiod_none.1 _,
   c10_subperiod_none.2 ["A.B.C.D.20210110.csv"]
     (⟨2021, 1, 1, 0, 0, 0⟩, ⟨2021, 1, 31, 23, 59, 0⟩)
     [("A.B.C.D.20210110.csv", (⟨2021, 1, 10, 0, 0, 0⟩, ⟨2021, 1, 10, 23, 59, 0⟩))] rfl
     "A.B.C.D.20210110.csv" (⟨2021, 1, 10, 0, 0, 0⟩, ⟨2021, 1, 10, 23, 59, 0⟩)⟩

/-- C2: the RawConcat sink cannot concatenate anything: its copy operation
calls the client decompress with the required func argument missing, so every
invocation raises TypeError before a byte is read or written; in particular
the shared header of identical-header files is never written at all, from any
state. -/
theorem c2_rawconcat_type_error (st : FileOutput) (fp : String) :
    FileOutput.copy_file st fp =
      .error "TypeError: decompress() missing 1 required positional argument: \x27func\x27" :=
  rfl

/-- C5: a download request in which every candidate directory produces zero
matches returns the sink default result None with the no-files warning and
without an exception. -/
theorem c5_zero_matches (σ : Type) (ls : String → Option (List String)) (sink : Sink σ)
    (asset_class : AssetClass) (frequency : Frequency) (start end_ : Datetime)
    (buckets : List Bucket) (prefixDir : String) (trial : Bool) (template : String)
    (h : ∀ dir ∈ iter_dirs asset_class frequency buckets template
          (if trial then prefixDir ++ "/TRIAL" else prefixDir),
        matching (ls dir) (start, end_) none = .ok []) :
    download ls sink asset_class frequency start end_ buckets prefixDir trial template =
      .ok ⟨none, none, 0,
        List.replicate (iter_dirs asset_class frequency buckets template
          (if trial then prefixDir ++ "/TRIAL" else prefixDir)).length none, true⟩ := by
  simp only [download]
  rw [downloadDirs_empty ls sink (start, end_) _ h none 0 []]
  rfl

/-- Witness for C5: with every directory absent (a missing directory lists as
zero matches) the download returns None, zero files and the warning. -/
theorem c5_zero_matches_witness :
    download (fun _ => none) (⟨fun acc _ => .ok acc⟩ : Sink Unit) .CMPNY .WDAI_UDAI
        ⟨2021, 1, 1, 0, 0, 0⟩ ⟨2021, 1, 31, 23, 59, 0⟩ [] DEFAULT_PREFIX_DIR false
        DEFAULT_TEMPLATE =
      .ok ⟨none, none, 0,
        List.replicate (iter_dirs .CMPNY .WDAI_UDAI [] DEFAULT_TEMPLATE
          (if false then DEFAULT_PREFIX_DIR ++ "/TRIAL" else DEFAULT_PREFIX_DIR)).length none,
        true⟩ :=
  c5_zero_matches Unit (fun _ => none) ⟨fun acc _ => .ok acc⟩ .CMPNY .WDAI_UDAI
    ⟨2021, 1, 1, 0, 0, 0⟩ ⟨2021, 1, 31, 23, 59, 0⟩ [] DEFAULT_PREFIX_DIR false DEFAULT_TEMPLATE
    (fun _ _ => rfl)

/-- C6: the header-mismatch guard of the RawConcat sink is unreachable: fed
any nonempty sequence of files, differing headers or not, the sink raises the
decompress TypeError at the first file, before any header is recorded or
compared, so no header-mismatch error naming both headers is ever raised (and
nothing beyond the first file, or of it, is written). -/
theorem c6_mismatch_unreachable (st : FileOutput) (fp : String) (rest : List String) :
    FileOutput.copy_files st (fp :: rest) =
      .error "TypeError: decompress() missing 1 required positional argument: \x27func\x27" :=
  rfl

/-- C7: when no asset or source filter is set and the file period parsed from
the path lies inside the sink window, filter_rows returns the row stream
unchanged, so every row of the file reaches the result. -/
theorem c7_fast_path (o : DataFrameOutput) (fr : List String) (path : String)
    (ps pe : Datetime) (hparse : parse_file_period path = .ok (ps, pe))
    (ha : o.assets = []) (hs : o.sources = [])
    (h1 : o.start.key ≤ ps.key) (h2 : pe.key ≤ o.end_.key) :
    filter_rows o fr path = .ok fr := by
  rw [filter_rows, hparse]
  simp only [ha, hs, List.isEmpty_nil, decide_eq_true h1, decide_eq_true h2,
    Bool.and_self, Bool.and_true, if_true]

/-- Witness for C7: a file covering 2021-01-10 inside a year-long window with
no filters passes both rows through unchanged. -/
theorem c7_fast_path_witness :
    filter_rows ⟨[], [], ⟨2021, 1, 1, 0, 0, 0⟩, ⟨2021, 12, 31, 23, 59, 0⟩⟩
        ["h\tr", "a\tb"] "A.B.C.D.20210110.csv" = .ok ["h\tr", "a\tb"] :=
  c7_fast_path ⟨[], [], ⟨2021, 1, 1, 0, 0, 0⟩, ⟨2021, 12, 31, 23, 59, 0⟩⟩
    ["h\tr", "a\tb"] "A.B.C.D.20210110.csv"
    ⟨2021, 1, 10, 0, 0, 0⟩ ⟨2021, 1, 10, 23, 59, 0⟩ rfl rfl rfl (by decide) (by decide)

/-- C8 (amended): a string that fails the date pattern raises the parse error
naming the string and the expected format; a matching string whose resolved
components are in the calendar ranges (year at least 1, month 1..12, day at
least 1, hour at most 23, minute at most 59) yields the datetime with the
missing components defaulted by range side and the day clamped to the length
of the resolved month. -/
theorem c8_parse_date_behavior :
    (∀ (s : String) (isEnd : Bool), matchDatePat s.data = none →
      parse_date s isEnd =
        .error ("Can\x27t parse timestamp: \x27" ++ s ++ "\x27. Expecting format: " ++
          DATETIME_FMT)) ∧
    (∀ (s : String) (isEnd : Bool) (g : DateGroups), matchDatePat s.data = some g →
      ∀ mo dy hh mi : Nat,
        mo = g.month.getD (if isEnd then 12 else 1) →
        dy = g.day.getD (if isEnd then 31 else 1) →
        hh = g.hour.getD (if isEnd then 23 else 0) →
        mi = g.minute.getD (if isEnd then 59 else 0) →
        1 ≤ g.year → g.year ≤ 9999 → 1 ≤ mo → mo ≤ 12 → 1 ≤ dy → hh ≤ 23 → mi ≤ 59 →
        parse_date s isEnd = .ok ⟨g.year, mo, min dy (daysIn g.year mo), hh, mi, 0⟩) := by
  constructor
  · intro s isEnd hm
    rw [parse_date, hm]
  · intro s isEnd g hm mo dy hh mi hmo hdy hhh hmi hy1 hy2 hmo1 hmo2 hdy1 hhh1 hmi1
    rw [parse_date, hm]
    simp only [← hmo, ← hdy, ← hhh, ← hmi]
    have hmr : monthrange g.year mo = .ok (daysIn g.year mo) := by
      rw [monthrange, if_pos ⟨hmo1, hmo2⟩]
    rw [hmr]
    show mkDatetime g.year mo (min dy (daysIn g.year mo)) hh mi =
      .ok ⟨g.year, mo, min dy (daysIn g.year mo), hh, mi, 0⟩
    have hdays : 1 ≤ daysIn g.year mo := by
      have h28 : 28 ≤ mdays.getD mo 0 := by interval_cases mo <;> simp [mdays]
      unfold daysIn
      omega
    have hminle : min dy (daysIn g.year mo) ≤ daysIn g.year mo := Nat.min_le_right _ _
    have hminge : 1 ≤ min dy (daysIn g.year mo) := Nat.le_min.mpr ⟨hdy1, hdays⟩
    rw [mkDatetime, if_neg (by omega), if_neg (by omega), if_neg (by omega),
      if_neg (by omega), if_neg (by omega)]

/-- Witness for C8: a non-matching string raises the parse error, and the
matching string 2021-07 as a range end resolves to 2021-07-31 23:59. -/
theorem c8_parse_date_behavior_witness :
    parse_date "abc" false =
      .error ("Can\x27t parse timestamp: \x27abc\x27. Expecting format: " ++ DATETIME_FMT) ∧
    parse_date "2021-07" true = .ok ⟨2021, 7, min 31 (daysIn 2021 7), 23, 59, 0⟩ :=
  ⟨c8_parse_date_behavior.1 "abc" false rfl,
   c8_parse_date_behavior.2 "2021-07" true ⟨2021, some 7, none, none, none⟩ rfl 7 31 23 59
     rfl rfl rfl rfl (by decide) (by decide) (by decide) (by decide) (by decide) (by decide)
     (by decide)⟩

/-- Counterexample for C8 as stated: the string 2021-13 matches the partial
date pattern, yet parse_date raises the IllegalMonthError of the calendar
lookup instead of returning a defaulted, clamped datetime, and the error is
not the parse error the claim allows. -/
theorem c8_counterexample :
    (matchDatePat ("2021-13".data)).isSome = true ∧
    parse_date "2021-13" false = .error "bad month number 13; must be 1-12" :=
  ⟨rfl, rfl⟩

/-- C9: each directory of a download updates the coverage envelope to the
bounding union of its previous value and the periods matched there, and over
the whole call the envelope trace grows monotonically: every recorded value
is a sub-period of every later one. -/
theorem c9_envelope_monotone {σ : Type} (ls : String → Option (List String)) (sink : Sink σ)
    (asset_class : AssetClass) (frequency : Frequency) (start end_ : Datetime)
    (buckets : List Bucket) (prefixDir : String) (trial : Bool) (template : String)
    (tr : DL σ)
    (h : download ls sink asset_class frequency start end_ buckets prefixDir trial template =
      .ok tr) :
    (∀ (st : DLState σ) (dir : String) (st2 : DLState σ),
      processDir ls sink (start, end_) st dir = .ok st2 →
      ∃ ms, matching (ls dir) (start, end_) st.copied_period = .ok ms ∧
        st2.copied_period = periods_union (st.copied_period :: ms.map (fun x => some x.2))) ∧
    EnvMono tr.envelopes := by
  constructor
  · intro st dir st2 h2
    obtain ⟨ms, res, hm, _, hst⟩ := processDir_ok ls sink (start, end_) st dir st2 h2
    exact ⟨ms, hm, by rw [hst]⟩
  · simp only [download] at h
    cases hd : downloadDirs ls sink (start, end_)
        (iter_dirs asset_class frequency buckets template
          (if trial then prefixDir ++ "/TRIAL" else prefixDir)) ⟨none, none, 0, []⟩ with
    | error e => rw [hd] at h; exact Except.noConfusion h
    | ok st =>
      rw [hd] at h
      injection h with h
      have hinit : DLInv (⟨none, none, 0, []⟩ : DLState σ) := by
        constructor
        · intro i j ei ej _ hi _
          simp at hi
        · intro e he
          cases he
      have hinv := downloadDirs_inv ls sink (start, end_) _ _ _ hd hinit
      rw [← h]
      exact hinv.1

/-- Witness for C9: a single monthly file matched in the first directory sets
the envelope to January 2021 and the recorded trace stays monotone across the
remaining directories. -/
theorem c9_envelope_monotone_witness :
    EnvMono ((⟨none,
      some (⟨2021, 1, 1, 0, 0, 0⟩, ⟨2021, 1, 31, 23, 59, 0⟩), 1,
      [some (⟨2021, 1, 1, 0, 0, 0⟩, ⟨2021, 1, 31, 23, 59, 0⟩),
       some (⟨2021, 1, 1, 0, 0, 0⟩, ⟨2021, 1, 31, 23, 59, 0⟩),
       some (⟨2021, 1, 1, 0, 0, 0⟩, ⟨2021, 1, 31, 23, 59, 0⟩),
       some (⟨2021, 1, 1, 0, 0, 0⟩, ⟨2021, 1, 31, 23, 59, 0⟩)], false⟩ : DL Unit).envelopes) :=
  (c9_envelope_monotone (σ := Unit) (fun _ => some ["MI4.CMPNY.WDAI_UDAI.x.202101.csv"])
    ⟨fun acc _ => .ok acc⟩ .CMPNY .WDAI_UDAI ⟨2021, 1, 1, 0, 0, 0⟩ ⟨2021, 1, 31, 23, 59, 0⟩
    [] DEFAULT_PREFIX_DIR false DEFAULT_TEMPLATE
    ⟨none, some (⟨2021, 1, 1, 0, 0, 0⟩, ⟨2021, 1, 31, 23, 59, 0⟩), 1,
      [some (⟨2021, 1, 1, 0, 0, 0⟩, ⟨2021, 1, 31, 23, 59, 0⟩),
       some (⟨2021, 1, 1, 0, 0, 0⟩, ⟨2021, 1, 31, 23, 59, 0⟩),
       some (⟨2021, 1, 1, 0, 0, 0⟩, ⟨2021, 1, 31, 23, 59, 0⟩),
       some (⟨2021, 1, 1, 0, 0, 0⟩, ⟨2021, 1, 31, 23, 59, 0⟩)], false⟩ rfl).2

end MarketPsych
